import Mathlib

/-!
Shallow embedding of the tabular merge/reconciliation engine of the
Biosurv merger application (`src/src/main.rs`, final revision, and the
minION-schema revision `src/rust_without_minknow/src/main.rs`), together
with theorems settling the frozen claims about it.

Tables are modelled row-major: a header of column names plus rows of
nullable string cells (`Option String`, `none` being polars' null, which
is also what an empty CSV field loads as). Machine strings are modelled
with Lean `String`; the Rust substring operations (`contains`, `split`,
`trim`, `replace` of single characters, `ends_with`) are re-implemented
structurally over `List Char` so that every definition evaluates inside
the kernel.
-/

namespace Merger

/-- `leadsWith pat l` : does `l` start with `pat`? (Char-list model of a
    Rust `str::starts_with`.) -/
def leadsWith : List Char → List Char → Bool
  | [], _ => true
  | _ :: _, [] => false
  | p :: ps, t :: ts => p == t && leadsWith ps ts

/-- `hasSub pat l` : does `pat` occur as a contiguous sublist of `l`?
    (Char-list model of Rust `str::contains`.) -/
def hasSub : List Char → List Char → Bool
  | ps, [] => leadsWith ps []
  | ps, t :: ts => leadsWith ps (t :: ts) || hasSub ps ts

/-- Model of Rust `str::contains` on strings. -/
def strContains (s sub : String) : Bool := hasSub sub.data s.data

/-- Model of Rust `str::ends_with` on strings. -/
def endsWithS (s suf : String) : Bool := leadsWith suf.data.reverse s.data.reverse

/-- Everything strictly before the first occurrence of `sep` (the whole
    list when `sep` does not occur): Rust `s.split(sep).next()`. -/
def beforeFirst (sep : List Char) : List Char → List Char
  | [] => []
  | t :: ts => if leadsWith sep (t :: ts) then [] else t :: beforeFirst sep ts

/-- The suffix just after the first occurrence of `sep`, if any. -/
def afterFirst (sep : List Char) : List Char → Option (List Char)
  | [] => none
  | t :: ts => if leadsWith sep (t :: ts) then some ((t :: ts).drop sep.length)
               else afterFirst sep ts

/-- The second piece of Rust `s.split(sep)` (i.e. `.nth(1)`): the segment
    between the first occurrence of `sep` and the next one. -/
def sliceBetween (sep text : List Char) : Option (List Char) :=
  (afterFirst sep text).map (fun rest => beforeFirst sep rest)

/-- Model of Rust `str::trim` (strips leading and trailing whitespace). -/
def trimList (l : List Char) : List Char :=
  ((l.dropWhile Char.isWhitespace).reverse.dropWhile Char.isWhitespace).reverse

/-- Model of the single-character `String::replace(pat, "")` calls used
    on the missing-columns message: remove every occurrence of `c`. -/
def stripCh (c : Char) (s : String) : String := ⟨s.data.filter (fun x => x ≠ c)⟩

/-- A polars DataFrame as loaded by the app: named columns over
    all-string nullable cells, row-major. -/
structure Table where
  header : List String
  rows : List (List (Option String))
deriving DecidableEq, Repr

/-- Index of a column name in a header (length of the header when the
    name is absent) — model of polars `get_column_index`. -/
def colIdx (h : List String) (n : String) : Nat := h.findIdx (fun c => c == n)

/-- The cell of row `i` under column `n` (null when out of range). -/
def Table.cellAt (t : Table) (i : Nat) (n : String) : Option String :=
  (t.rows.getD i []).getD (colIdx t.header n) none

/-- polars `DataFrame::rename(old, new)`: a no-op when `old = new`,
    an error when `new` already exists (duplicate) or `old` is not found,
    otherwise replaces `old` by `new` at its position in the header. -/
def renameCol (t : Table) (o n : String) : Except String Table :=
  if o = n then .ok t
  else if t.header.contains n then .error ("duplicate column name " ++ n)
  else if t.header.contains o then
    .ok { t with header := t.header.set (colIdx t.header o) n }
  else .error ("column not found " ++ o)

/-- polars `DataFrame::drop_many`: remove the named columns. -/
def dropMany (t : Table) (cs : List String) : Table :=
  let keepIdx := (List.range t.header.length).filter
    (fun i => !(cs.contains (t.header.getD i "")))
  { header := t.header.filter (fun c => !(cs.contains c)),
    rows := t.rows.map (fun row => keepIdx.map (fun i => row.getD i none)) }

/-- The column names common to two tables (the `HashSet` intersection of
    `on_merge`, determinized in left-header order). -/
def commonColumns (a b : Table) : List String :=
  a.header.filter (fun c => b.header.contains c)

/-- The epi-info rows whose key column equals the (non-null) sample key.
    Null keys never match (polars' default `join_nulls = false`). -/
def joinMatches (r : Table) (rk : String) (k : Option String) :
    List (List (Option String)) :=
  match k with
  | none => []
  | some v => r.rows.filter (fun er => er.getD (colIdx r.header rk) none == some v)

/-- Width of the right-side contribution to a joined row (right header
    minus its key column). -/
def padWidth (r : Table) (rk : String) : Nat :=
  (r.header.eraseIdx (colIdx r.header rk)).length

/-- The joined rows produced by one left row: every match extends it by
    the right row minus the key column; no match pads with nulls. -/
def joinRow (l r : Table) (lk rk : String) (row : List (Option String)) :
    List (List (Option String)) :=
  match joinMatches r rk (row.getD (colIdx l.header lk) none) with
  | [] => [row ++ List.replicate (padWidth r rk) none]
  | ms => ms.map (fun er => row ++ er.eraseIdx (colIdx r.header rk))

/-- The single joined row for a left row when its key has at most one
    match (proof-side normal form of `joinRow`). -/
def joinOne (l r : Table) (lk rk : String) (row : List (Option String)) :
    List (Option String) :=
  match joinMatches r rk (row.getD (colIdx l.header lk) none) with
  | [] => row ++ List.replicate (padWidth r rk) none
  | er :: _ => row ++ er.eraseIdx (colIdx r.header rk)

/-- polars `left_join(&right, [lk], [rk])`: every left row is kept, right
    columns (minus the key) are appended, unmatched rows are null-padded. -/
def leftJoin (l r : Table) (lk rk : String) : Table :=
  { header := l.header ++ r.header.eraseIdx (colIdx r.header rk),
    rows := l.rows.flatMap (joinRow l r lk rk) }

/-- The DDNS output schema: the `expected_columns` array of
    `src/src/main.rs` (44 required column names, in output order). -/
def expectedColumns : List String :=
  ["sample", "barcode", "IsQCRetest", "IfRetestOriginalRun", "EPID",
   "institute", "SampleType", "CaseOrContact", "Country", "Province",
   "District", "StoolCondition", "SpecimenNumber", "DateOfOnset",
   "DateStoolCollected", "DateStoolReceivedinLab", "DateRNAextraction",
   "DateRTPCR", "RTPCRMachine", "RTPCRprimers", "DateVP1PCR",
   "VP1PCRMachine", "VP1primers", "PositiveControlPCRCheck",
   "NegativeControlPCRCheck", "LibraryPreparationKit", "Well", "RunNumber",
   "DateSeqRunLoaded", "SequencerUsed", "FlowCellVersion", "FlowCellID",
   "FlowCellPriorUses", "PoresAvilableAtFlowCellCheck",
   "MinKNOWSoftwareVersion", "RunHoursDuration", "DateFastaGenerated",
   "AnalysisPipelineVersion", "RunQC", "Classification", "SampleQC",
   "SampleQCChecksComplete", "QCComments", "DateReported"]

/-- The required columns absent from a header: the `missing` vector of the
    validation step (`expected_columns.iter().filter(!contains)`). -/
def missingColumns (actual : List String) : List String :=
  expectedColumns.filter (fun c => !(actual.contains c))

/-- `format!("{:?}", missing)` on a vector of strings. -/
def listDebugFmt (xs : List String) : String :=
  "[" ++ String.intercalate ", " (xs.map (fun s => "\"" ++ s ++ "\"")) ++ "]"

/-- The missing-columns error message exactly as built in `on_merge`:
    the debug-formatted list with quotes and brackets stripped. -/
def missingText (missing : List String) : String :=
  stripCh ']' (stripCh '[' (stripCh '"'
    ("These columns were missing from Samples CSV file: " ++ listDebugFmt missing)))

/-- The pre-join header validation of `on_merge`: fail with the missing
    column list when any required column is absent. -/
inductive MergeErr where
  | inputMissing
  | invalidExt
  | csvReadErr
  | missingCols (missing : List String)
  | renameErr
  | mergeErr
  | selectErr
  | formatErr (msg : String)
deriving DecidableEq, Repr

/-- The header validation step of `on_merge` on the sample table. -/
def validateStage (t : Table) : Except MergeErr Unit :=
  if missingColumns t.header = [] then .ok () else .error (.missingCols (missingColumns t.header))

/-- polars `DataFrame::select(expected_columns)`: project/reorder to
    exactly the given columns, failing when one is absent. -/
def selectCols (t : Table) (cols : List String) : Except MergeErr Table :=
  if ∀ c ∈ cols, c ∈ t.header then
    .ok { header := cols,
          rows := t.rows.map (fun row => cols.map (fun c => row.getD (colIdx t.header c) none)) }
  else .error .selectErr

/-- Model of the regex `^\d{8}_\d{3}$` (run number `yyyymmdd_xxx`). -/
def runNumMatches (s : String) : Bool :=
  match s.data with
  | [a, b, c, d, e, f, g, h, u, x, y, z] =>
    ([a, b, c, d, e, f, g, h].all Char.isDigit) && u == '_' &&
      ([x, y, z].all Char.isDigit)
  | _ => false

/-- Model of the regex `^\d{4}-\d{2}-\d{2}$` (date `yyyy-mm-dd`). -/
def dateMatches (s : String) : Bool :=
  match s.data with
  | [a, b, c, d, h1, e, f, h2, g, k] =>
    ([a, b, c, d].all Char.isDigit) && h1 == '-' &&
      ([e, f].all Char.isDigit) && h2 == '-' && ([g, k].all Char.isDigit)
  | _ => false

/-- The field names used in the date format error messages. -/
def dateFieldName : Nat → String
  | 0 => "RT PCR Date"
  | 1 => "VP1 PCR Date"
  | 2 => "Sequencing Date"
  | 3 => "Fasta Generation Date"
  | _ => "Unknown Date Field"

/-- The date-error collection loop of `on_merge`: one message per
    non-empty field that fails the date regex, indexed from `i`. -/
def dateErrorsFrom (i : Nat) : List String → List String
  | [] => []
  | d :: ds =>
    if d ≠ "" ∧ dateMatches d = false then
      ("Invalid date format for field " ++ dateFieldName i ++ ": " ++ d)
        :: dateErrorsFrom (i + 1) ds
    else dateErrorsFrom (i + 1) ds

/-- The run-number error string (`run_num_err`), empty when the run
    number is empty or matches the regex. -/
def runNumErrMsg (rn : String) : String :=
  if rn ≠ "" ∧ runNumMatches rn = false then
    "\n\nInvalid run number format: " ++ rn ++ " \nExpected yyyymmdd_xxx."
  else ""

/-- The operator-entered run constants captured from the form at merge
    time (together with the UI fields the report extractor fills). -/
structure OperatorInputs where
  lab : String
  runNum : String
  pirVer : String
  minknowVer : String
  rtDate : String
  vp1Date : String
  seqDate : String
  fastaDate : String
  pcrMachine : String
  seqKit : String
  fcId : String
  fcUses : String
  fcPores : String
  seqHours : String
  posCon : String
  negCon : String
deriving DecidableEq, Repr

/-- The merge-mode format validation of `on_merge`: collect the run
    number error and every date error, and when any exists return them
    joined into the single combined message shown to the operator. -/
def formatCheck (ui : OperatorInputs) : Option String :=
  let rErr := runNumErrMsg ui.runNum
  let dErrs := dateErrorsFrom 0 [ui.rtDate, ui.vp1Date, ui.seqDate, ui.fastaDate]
  if dErrs ≠ [] ∨ rErr ≠ "" then
    let dErrs2 := if dErrs ≠ [] then dErrs ++ ["Expected yyyy-mm-dd."] else dErrs
    some ("\n" ++ String.intercalate "\n\n" dErrs2 ++ " \n " ++ rErr ++
      " \n\n Refer to the Guide for more information.")
  else none

/-- The positive PCR-control normalization (`pos_con` match). -/
def posConNorm (s : String) : String :=
  match s with
  | "Positive Passed" => "Pass"
  | "Positive Failed" => "Fail"
  | "Unselected" => ""
  | _ => "unknown"

/-- The negative PCR-control normalization (`neg_con` match). -/
def negConNorm (s : String) : String :=
  match s with
  | "Negative Passed" => "Pass"
  | "Negative Failed" => "Fail"
  | "Unselected" => ""
  | _ => "unknown"

/-- The designated fill columns of the merge-mode `with_columns` chain,
    paired with the operator/run value each one is `fill_null`ed with. -/
def fillPairs (ui : OperatorInputs) : List (String × String) :=
  [("institute", ui.lab),
   ("RunNumber", ui.runNum),
   ("MinKNOWSoftwareVersion", ui.minknowVer),
   ("AnalysisPipelineVersion", ui.pirVer),
   ("DateRTPCR", ui.rtDate),
   ("DateVP1PCR", ui.vp1Date),
   ("RTPCRMachine", ui.pcrMachine),
   ("VP1PCRMachine", ui.pcrMachine),
   ("PositiveControlPCRCheck", posConNorm ui.posCon),
   ("NegativeControlPCRCheck", negConNorm ui.negCon),
   ("LibraryPreparationKit", ui.seqKit),
   ("DateSeqRunLoaded", ui.seqDate),
   ("FlowCellID", ui.fcId),
   ("FlowCellPriorUses", ui.fcUses),
   ("PoresAvilableAtFlowCellCheck", ui.fcPores),
   ("RunHoursDuration", ui.seqHours),
   ("DateFastaGenerated", ui.fastaDate)]

/-- `col(h).fill_null(lit v)` on one cell: nulls become the fill value,
    populated cells are untouched. Cells of undesignated columns pass
    through unchanged. -/
def fillCell (ps : List (String × String)) (h : String) (c : Option String) :
    Option String :=
  match ps.lookup h with
  | some v => some (c.getD v)
  | none => c

/-- One row of the `with_columns` fill, cells paired with their column
    names positionally. -/
def fillRow (ps : List (String × String)) : List String → List (Option String) → List (Option String)
  | _, [] => []
  | [], c :: cs => c :: fillRow ps [] cs
  | h :: hs, c :: cs => fillCell ps h c :: fillRow ps hs cs

/-- The merge-mode `with_columns([... fill_null ...])` chain over the
    merged table. -/
def withColumnsFill (t : Table) (ps : List (String × String)) : Table :=
  { header := t.header, rows := t.rows.map (fillRow ps t.header) }

/-- A parsed JSON value (the shape `serde_json::Value` exposes to the
    report extractor; numbers are modelled as integers since only
    `as_i64` is used). -/
inductive Json where
  | jnull
  | jbool (b : Bool)
  | jnum (n : Int)
  | jstr (s : String)
  | jarr (xs : List Json)
  | jobj (fields : List (String × Json))

/-- `Value::get(key)` on an object. -/
def Json.get : Json → String → Option Json
  | .jobj fs, k => fs.lookup k
  | _, _ => none

/-- `Value::as_str`. -/
def Json.asStr : Json → Option String
  | .jstr s => some s
  | _ => none

/-- `Value::as_array`. -/
def Json.asArr : Json → Option (List Json)
  | .jarr xs => some xs
  | _ => none

/-- `Value::as_i64`. -/
def Json.asInt : Json → Option Int
  | .jnum n => some n
  | _ => none

/-- `Value::get(i)` with an array index. -/
def Json.idx : Json → Nat → Option Json
  | .jarr xs, n => xs.get? n
  | _, _ => none

/-- `entry.get("value").and_then(as_str).unwrap_or("Unknown")`. -/
def entryVal (e : Json) : String :=
  ((e.get "value").bind Json.asStr).getD "Unknown"

/-- The extraction loops over `software_versions` / `run_setup` /
    `run_settings`: the UI field is set once per entry whose `title`
    matches, so the last matching entry's value wins; when no entry
    matches, the field is not set at all. -/
def lastTitled (arr : Option Json) (title : String) : Option String :=
  match arr.bind Json.asArr with
  | none => none
  | some xs =>
    match (xs.filter (fun e => (e.get "title").bind Json.asStr == some title)).getLast? with
    | none => none
    | some e => some (entryVal e)

/-- The pore-count extraction: `pore_scan.series_data[]`, the entry named
    `"Pore available"`, its first `data` pair's second element as i64. -/
def poreValue (j : Json) : Option String :=
  match ((j.get "pore_scan").bind (fun v => v.get "series_data")).bind Json.asArr with
  | none => none
  | some sd =>
    match sd.find? (fun s => (s.get "name").bind Json.asStr == some "Pore available") with
    | none => none
    | some pa =>
      match (pa.get "data").bind Json.asArr with
      | none => none
      | some data =>
        match data.get? 0 with
        | none => none
        | some pair =>
          match (pair.idx 1).bind Json.asInt with
          | none => none
          | some v => some (toString v)

/-- The run-level scalar fields the report extractor writes into the UI;
    a field is `none` when the extractor did not set it. -/
structure RunMetadata where
  minknowVer : Option String
  fcId : Option String
  seqKit : Option String
  seqHours : Option String
  seqDate : Option String
  fcPores : Option String
deriving DecidableEq, Repr

/-- The RunMetadata produced when no field is extracted (no marker found
    or the embedded JSON fails to parse): nothing is set. -/
def RunMetadata.empty : RunMetadata := ⟨none, none, none, none, none, none⟩

/-- The field extraction from a successfully parsed `reportData` value.
    `run_end_time` is set unconditionally (to `"Unknown"` when absent),
    taking the date portion before the first `T`. -/
def extractFields (j : Json) : RunMetadata :=
  { minknowVer := lastTitled (j.get "software_versions") "MinKNOW",
    fcId := lastTitled (j.get "run_setup") "Flow cell ID",
    seqKit := lastTitled (j.get "run_setup") "Kit type",
    seqHours := lastTitled (j.get "run_settings") "Run limit",
    seqDate := some (match (j.get "run_end_time").bind Json.asStr with
      | some s => ⟨beforeFirst ['T'] s.data⟩
      | none => "Unknown"),
    fcPores := poreValue j }

/-- `text.contains("const reportData=")`. -/
def hasMarker (s : String) : Bool := strContains s "const reportData="

/-- `script_text.split("const reportData=").nth(1).and_then(split(';').next()).map(trim)`:
    the JSON slice following the marker up to the `;` terminator. -/
def reportSlice (text : String) : Option String :=
  (sliceBetween "const reportData=".data text.data).map
    (fun r => ⟨trimList (beforeFirst [';'] r)⟩)

/-- The run-report extractor over the document's script texts: find the
    first script containing the marker, slice the JSON after it, parse it
    with the supplied JSON parser (the external `serde_json` boundary),
    and extract the fields. Every failure degrades to the empty
    RunMetadata — extraction is best-effort and total. -/
def extractRunMetadata (scripts : List String) (parse : String → Option Json) :
    RunMetadata :=
  match scripts.find? (fun s => hasMarker s) with
  | none => RunMetadata.empty
  | some text =>
    match reportSlice text with
    | none => RunMetadata.empty
    | some js =>
      match parse js with
      | none => RunMetadata.empty
      | some j => extractFields j

/-- Write the extracted fields into the corresponding UI fields (each
    `ui.set_*` call happens only when the extractor found the field). -/
def applyExtract (ui : OperatorInputs) (m : RunMetadata) : OperatorInputs :=
  { ui with
    minknowVer := m.minknowVer.getD ui.minknowVer,
    fcId := m.fcId.getD ui.fcId,
    seqKit := m.seqKit.getD ui.seqKit,
    seqHours := m.seqHours.getD ui.seqHours,
    seqDate := m.seqDate.getD ui.seqDate,
    fcPores := m.fcPores.getD ui.fcPores }

/-- The post-rename, drop-common, left-join, rename-back sequence of
    `on_merge` when an epi-info table is present: the sample `EPID`
    column is renamed to `EpidNumber`, columns shared with the epi-info
    table are dropped from the sample side, the tables are left-joined on
    `sample` = `ICLabID` (an error when a key column is absent, as in
    polars), and `EpidNumber` is renamed back to `EPID`. -/
def reconcileJoin (sampleDf epi : Table) : Except MergeErr Table :=
  (renameCol sampleDf "EPID" "EpidNumber").mapError (fun _ => MergeErr.renameErr) >>= fun s1 =>
  (if "sample" ∈ (dropMany s1 (commonColumns s1 epi)).header ∧ "ICLabID" ∈ epi.header
   then Except.ok (leftJoin (dropMany s1 (commonColumns s1 epi)) epi "sample" "ICLabID")
   else Except.error MergeErr.mergeErr) >>= fun m =>
  (renameCol m "EpidNumber" "EPID").mapError (fun _ => MergeErr.renameErr)

/-- The epi-present / epi-absent branch of `on_merge`, each ending in the
    `select(expected_columns)` projection. -/
def mergeStage (sampleDf : Table) (epiDf : Option Table) : Except MergeErr Table :=
  match epiDf with
  | some epi => (reconcileJoin sampleDf epi).bind (fun m => selectCols m expectedColumns)
  | none => selectCols sampleDf expectedColumns

/-- The merge-mode tail of `on_merge`: validate formats (aborting with
    the combined message), fill the run constants, and re-project; update
    mode only re-projects. -/
def fillStage (mode : String) (ui : OperatorInputs) (merged : Table) :
    Except MergeErr Table :=
  if mode = "merge" then
    match formatCheck ui with
    | some msg => .error (.formatErr msg)
    | none => selectCols (withColumnsFill merged (fillPairs ui)) expectedColumns
  else selectCols merged expectedColumns

/-- The inputs a single `on_merge` invocation reads: the selected paths,
    the parse results of the two CSVs, the script texts of the HTML
    report, the operator form snapshot and the action mode. -/
structure MergeEnv where
  samplePath : String
  epiPath : String
  minknowPath : String
  destination : String
  sampleCsv : Except String Table
  epiCsv : Except String Table
  htmlScripts : List String
  ui : OperatorInputs
  mode : String

/-- The path/extension pre-checks of `on_merge` (epi-info is optional:
    its extension is only checked when a path was supplied). -/
def checkPaths (env : MergeEnv) : Except MergeErr Unit :=
  if env.samplePath = "" ∨ env.minknowPath = "" ∨ env.destination = "" then
    .error .inputMissing
  else if !(endsWithS env.samplePath ".csv") then .error .invalidExt
  else if !(endsWithS env.epiPath ".csv") && !(env.epiPath = "") then .error .invalidExt
  else if !(endsWithS env.minknowPath ".html") then .error .invalidExt
  else .ok ()

/-- The optional epi-info load (`None` when no path was supplied). -/
def loadEpi (env : MergeEnv) : Except String (Option Table) :=
  if env.epiPath = "" then .ok none else env.epiCsv.map some

/-- The whole fallible pipeline of `on_merge`, in source order: path
    checks, report extraction into the UI, CSV loads, header validation,
    join/projection, then the merge-mode format check and fill. Any
    failing step short-circuits (the `return`s of the source). -/
def mergePipeline (env : MergeEnv) (parse : String → Option Json) :
    Except MergeErr Table :=
  checkPaths env >>= fun _ =>
  env.sampleCsv.mapError (fun _ => MergeErr.csvReadErr) >>= fun sampleDf =>
  (loadEpi env).mapError (fun _ => MergeErr.csvReadErr) >>= fun epiDf =>
  validateStage sampleDf >>= fun _ =>
  mergeStage sampleDf epiDf >>= fun merged =>
  fillStage env.mode (applyExtract env.ui (extractRunMetadata env.htmlScripts parse)) merged

/-- The output file path `<destination>/<RunNumber>_merger_output.csv`. -/
def outPath (env : MergeEnv) : String :=
  env.destination ++ "/" ++ env.ui.runNum ++ "_merger_output.csv"

/-- `on_merge` with its filesystem effect: the second component lists the
    files created. `File::create` is the last step of the source, reached
    only after every prior step succeeded. -/
def onMerge (env : MergeEnv) (parse : String → Option Json) :
    Except MergeErr Unit × List String :=
  match mergePipeline env parse with
  | .error e => (.error e, [])
  | .ok _ => (.ok (), [outPath env])

/-- The pre-join rename chain of the minION revision
    (`src/rust_without_minknow/src/main.rs`, lines 206–212): seven
    unconditional renames on the sample table, each `unwrap`ped. -/
def minionRenameChain (t : Table) : Except String Table := do
  let t1 ← renameCol t "EPID" "EpidNumber"
  let t2 ← renameCol t1 "CaseContactOrCommunity" "CaseOrContact"
  let t3 ← renameCol t2 "DateReceivedinLab" "DateStoolReceivedinLab"
  let t4 ← renameCol t3 "DateSampleCollected" "DateStoolCollected"
  let t5 ← renameCol t4 "CultureResult" "FinalCellCultureResult"
  let t6 ← renameCol t5 "DateFinalCultureResult" "DateFinalCellCultureResults"
  renameCol t6 "ITD_Result" "FinalITDResult"

/-- Occurrences of a character across a list of lines. -/
def countOcc (c : Char) (lines : List String) : Nat :=
  lines.foldl (fun a l => a + l.data.count c) 0

/-- Modelled from the spec: the Delimiter Sniffer (spec §4.1) is not part
    of the provided sources — CSV loading there goes through the library
    reader's defaults — so its decision rule is taken from the spec's
    words: count `,`, `;` and tab over the first 50 lines; choose `;`
    when `semis ≥ commas ∧ semis ≥ tabs ∧ semis > 0`; else tab when
    `tabs ≥ commas ∧ tabs > 0`; else default to `,`. -/
def detectDelimiter (lines : List String) : Char :=
  let sample := lines.take 50
  let commas := countOcc ',' sample
  let semis := countOcc ';' sample
  let tabs := countOcc '\t' sample
  if semis ≥ commas ∧ semis ≥ tabs ∧ 0 < semis then ';'
  else if tabs ≥ commas ∧ 0 < tabs then '\t'
  else ','

/-! ### Concrete fixtures used by witnesses and counterexamples -/

/-- An operator form with every field left empty. -/
def uiBlank : OperatorInputs :=
  ⟨"", "", "", "", "", "", "", "", "", "", "", "", "", "", "", ""⟩

/-- An operator form that only has the lab and a valid run number set. -/
def uiLab : OperatorInputs :=
  { uiBlank with lab := "LABX", runNum := "20250206_005" }

/-- A one-column, one-row table whose `institute` cell is populated. -/
def tInst : Table := ⟨["institute"], [[some "KEEP"]]⟩

/-- A sample header carrying 43 of the 44 DDNS columns — everything but
    `DateReported`. -/
def ddnsCols43 : List String :=
  ["sample", "barcode", "IsQCRetest", "IfRetestOriginalRun", "EPID",
   "institute", "SampleType", "CaseOrContact", "Country", "Province",
   "District", "StoolCondition", "SpecimenNumber", "DateOfOnset",
   "DateStoolCollected", "DateStoolReceivedinLab", "DateRNAextraction",
   "DateRTPCR", "RTPCRMachine", "RTPCRprimers", "DateVP1PCR",
   "VP1PCRMachine", "VP1primers", "PositiveControlPCRCheck",
   "NegativeControlPCRCheck", "LibraryPreparationKit", "Well", "RunNumber",
   "DateSeqRunLoaded", "SequencerUsed", "FlowCellVersion", "FlowCellID",
   "FlowCellPriorUses", "PoresAvilableAtFlowCellCheck",
   "MinKNOWSoftwareVersion", "RunHoursDuration", "DateFastaGenerated",
   "AnalysisPipelineVersion", "RunQC", "Classification", "SampleQC",
   "SampleQCChecksComplete", "QCComments"]

/-- A merge invocation with no sample file selected. -/
def envNoSample : MergeEnv :=
  { samplePath := "", epiPath := "", minknowPath := "m.html",
    destination := "d", sampleCsv := .error "unread", epiCsv := .error "unread",
    htmlScripts := [], ui := uiBlank, mode := "merge" }

/-- A merge invocation whose run number `2025020_5` violates the
    `yyyymmdd_xxx` format (concrete scenario 3 of the spec). -/
def envBadRunNum : MergeEnv :=
  { samplePath := "s.csv", epiPath := "", minknowPath := "m.html",
    destination := "d", sampleCsv := .error "unread", epiCsv := .error "unread",
    htmlScripts := [], ui := { uiBlank with runNum := "2025020_5" },
    mode := "merge" }

/-- A merge invocation whose run-report HTML has no `const reportData=`
    marker in any script. -/
def envNoMarker : MergeEnv :=
  { samplePath := "s.csv", epiPath := "", minknowPath := "m.html",
    destination := "d", sampleCsv := .error "unread", epiCsv := .error "unread",
    htmlScripts := ["no data here"], ui := uiBlank, mode := "update" }

/-- A sample table carrying every column the minION rename chain renames. -/
def tMinion : Table :=
  ⟨["barcode", "sample", "EPID", "CaseContactOrCommunity", "DateReceivedinLab",
    "DateSampleCollected", "CultureResult", "DateFinalCultureResult",
    "ITD_Result"], []⟩

/-- `tMinion` after one application of the minION rename chain. -/
def tMinionRenamed : Table :=
  ⟨["barcode", "sample", "EpidNumber", "CaseOrContact", "DateStoolReceivedinLab",
    "DateStoolCollected", "FinalCellCultureResult", "DateFinalCellCultureResults",
    "FinalITDResult"], []⟩

/-- Left side of the concrete join scenario: samples `A` and `B`. -/
def tJoinL : Table := ⟨["sample"], [[some "A"], [some "B"]]⟩

/-- Right side of the concrete join scenario: one epi-info row for `A`
    with an extra column `Foo`. -/
def tJoinR : Table := ⟨["ICLabID", "Foo"], [[some "A", some "bar"]]⟩

/-- A one-row sample table whose `EPID` cell is populated with `"X"`. -/
def tSampleEpid : Table := ⟨["sample", "EPID"], [[some "A", some "X"]]⟩

/-- An epi-info table matching that sample row, carrying `EpidNumber = "Y"`. -/
def tEpiEpid : Table := ⟨["ICLabID", "EpidNumber"], [[some "A", some "Y"]]⟩

/-! ### Helper lemmas -/

theorem contains_eq_true_iff_mem {l : List String} {a : String} :
    l.contains a = true ↔ a ∈ l := by
  simp [List.elem_iff]

theorem missingColumns_eq_nil_iff (actual : List String) :
    missingColumns actual = [] ↔ ∀ c ∈ expectedColumns, c ∈ actual := by
  unfold missingColumns
  rw [List.filter_eq_nil_iff]
  constructor
  · intro h c hc
    have := h c hc
    simpa [contains_eq_true_iff_mem] using this
  · intro h c hc
    simpa [contains_eq_true_iff_mem] using h c hc

theorem mem_missingColumns_iff (actual : List String) (c : String) :
    c ∈ missingColumns actual ↔ c ∈ expectedColumns ∧ c ∉ actual := by
  unfold missingColumns
  rw [List.mem_filter]
  simp [contains_eq_true_iff_mem]

/-! ### Claim theorems -/

/-- C8: the detected field separator follows the priority rule over the
    first 50 lines: `;` when `semis ≥ commas ∧ semis ≥ tabs ∧ semis > 0`,
    else tab when `tabs ≥ commas ∧ tabs > 0`, else the default `,`. -/
theorem delimiter_priority_rule (lines : List String) :
    (detectDelimiter lines = ';' ↔
      (countOcc ';' (lines.take 50) ≥ countOcc ',' (lines.take 50) ∧
       countOcc ';' (lines.take 50) ≥ countOcc '\t' (lines.take 50) ∧
       0 < countOcc ';' (lines.take 50))) ∧
    (detectDelimiter lines = '\t' ↔
      (¬(countOcc ';' (lines.take 50) ≥ countOcc ',' (lines.take 50) ∧
         countOcc ';' (lines.take 50) ≥ countOcc '\t' (lines.take 50) ∧
         0 < countOcc ';' (lines.take 50)) ∧
       countOcc '\t' (lines.take 50) ≥ countOcc ',' (lines.take 50) ∧
       0 < countOcc '\t' (lines.take 50))) ∧
    (detectDelimiter lines = ',' ↔
      (¬(countOcc ';' (lines.take 50) ≥ countOcc ',' (lines.take 50) ∧
         countOcc ';' (lines.take 50) ≥ countOcc '\t' (lines.take 50) ∧
         0 < countOcc ';' (lines.take 50)) ∧
       ¬(countOcc '\t' (lines.take 50) ≥ countOcc ',' (lines.take 50) ∧
         0 < countOcc '\t' (lines.take 50)))) := by
  simp only [detectDelimiter]
  split_ifs with h1 h2 <;>
    refine ⟨?_, ?_, ?_⟩ <;> simp_all <;> tauto

/-- C10: each PCR-control normalization maps exactly the strings other
    than its three literal selections to `"unknown"` — in particular the
    empty (never-touched) selection — so empty control selections fill
    null control cells with `"unknown"`, not with the empty value. -/
theorem pcr_control_normalization :
    (∀ s : String, posConNorm s = "unknown" ↔
      s ∉ (["Positive Passed", "Positive Failed", "Unselected"] : List String)) ∧
    (∀ s : String, negConNorm s = "unknown" ↔
      s ∉ (["Negative Passed", "Negative Failed", "Unselected"] : List String)) ∧
    posConNorm "" = "unknown" ∧ negConNorm "" = "unknown" ∧
    (∀ ui : OperatorInputs, ui.posCon = "" →
      fillCell (fillPairs ui) "PositiveControlPCRCheck" none = some "unknown") ∧
    (∀ ui : OperatorInputs, ui.negCon = "" →
      fillCell (fillPairs ui) "NegativeControlPCRCheck" none = some "unknown") := by
  refine ⟨?_, ?_, ?_, ?_, ?_, ?_⟩
  · intro s
    constructor
    · intro h hmem
      simp only [List.mem_cons, List.not_mem_nil, or_false] at hmem
      rcases hmem with h1 | h1 | h1 <;> subst h1 <;> exact absurd h (by decide)
    · intro hmem
      unfold posConNorm
      split
      · exact absurd (by simp) hmem
      · exact absurd (by simp) hmem
      · exact absurd (by simp) hmem
      · rfl
  · intro s
    constructor
    · intro h hmem
      simp only [List.mem_cons, List.not_mem_nil, or_false] at hmem
      rcases hmem with h1 | h1 | h1 <;> subst h1 <;> exact absurd h (by decide)
    · intro hmem
      unfold negConNorm
      split
      · exact absurd (by simp) hmem
      · exact absurd (by simp) hmem
      · exact absurd (by simp) hmem
      · rfl
  · decide
  · decide
  · intro ui h
    simp [fillPairs, fillCell, List.lookup, h]
    decide
  · intro ui h
    simp [fillPairs, fillCell, List.lookup, h]
    decide

/-- C10 witness: with an untouched (empty) control selection, a null
    positive-control cell is filled with `"unknown"`. -/
theorem pcr_control_normalization_witness :
    fillCell (fillPairs ⟨"", "", "", "", "", "", "", "", "", "", "", "", "", "", "", ""⟩)
      "PositiveControlPCRCheck" none = some "unknown" :=
  pcr_control_normalization.2.2.2.2.1
    ⟨"", "", "", "", "", "", "", "", "", "", "", "", "", "", "", ""⟩ rfl

/-- C3 (amended): header validation succeeds iff the table's column set
    is a superset of the required columns, and the computed missing list
    contains exactly the required columns the table lacks (every missing
    name, not just the first). -/
theorem schema_validation_superset :
    (∀ t : Table, validateStage t = Except.ok () ↔ ∀ c ∈ expectedColumns, c ∈ t.header) ∧
    (∀ actual c, c ∈ missingColumns actual ↔ (c ∈ expectedColumns ∧ c ∉ actual)) := by
  constructor
  · intro t
    unfold validateStage
    split_ifs with h
    · rw [missingColumns_eq_nil_iff] at h
      simpa using h
    · constructor
      · intro hh
        exact absurd hh (by simp)
      · intro hsup
        exact absurd ((missingColumns_eq_nil_iff t.header).mpr hsup) h
  · exact fun actual c => mem_missingColumns_iff actual c

/-- C3 counterexample: for a sample sheet missing exactly `DateReported`,
    the failure message lists the missing column but mentions neither the
    active Mode (`DDNS`/`minION`) nor any instruction about a template,
    contrary to the claim. -/
theorem missing_columns_message_lacks_mode :
    missingColumns ddnsCols43 = ["DateReported"] ∧
    missingText (missingColumns ddnsCols43) =
      "These columns were missing from Samples CSV file: DateReported" ∧
    strContains (missingText (missingColumns ddnsCols43)) "DDNS" = false ∧
    strContains (missingText (missingColumns ddnsCols43)) "minION" = false ∧
    strContains (missingText (missingColumns ddnsCols43)) "Mode" = false ∧
    strContains (missingText (missingColumns ddnsCols43)) "template" = false := by
  refine ⟨by decide, by decide, by decide, by decide, by decide, by decide⟩

theorem colIdx_get? : ∀ (hs : List String) (n : String), n ∈ hs →
    hs.get? (colIdx hs n) = some n := by
  intro hs n h
  induction hs with
  | nil => cases h
  | cons a as ih =>
    unfold colIdx at *
    rw [List.findIdx_cons]
    by_cases ha : a = n
    · subst ha; simp
    · have hb : (a == n) = false := by simp [ha]
      rw [hb]
      simp only [cond_false, List.get?_cons_succ]
      apply ih
      rcases List.mem_cons.mp h with h1 | h1
      · exact absurd h1.symm ha
      · exact h1

theorem fillRow_get? (ps : List (String × String)) :
    ∀ (cs : List (Option String)) (hs : List String) (i : Nat),
      (fillRow ps hs cs).get? i =
        (cs.get? i).map (fun c =>
          match hs.get? i with
          | some h => fillCell ps h c
          | none => c) := by
  intro cs
  induction cs with
  | nil => intro hs i; simp [fillRow]
  | cons c cs ih =>
    intro hs i
    cases hs with
    | nil =>
      cases i with
      | zero => simp [fillRow]
      | succ j => simpa [fillRow] using ih [] j
    | cons h hs' =>
      cases i with
      | zero => simp [fillRow]
      | succ j => simpa [fillRow] using ih hs' j

/-- C1: for every designated fill column of the merge-mode fill, a
    populated pre-fill cell is byte-identical after the fill, and a
    null/empty pre-fill cell is set to the corresponding operator-entered
    or run-metadata value — run constants never overwrite per-sample
    data. -/
theorem fill_never_overwrites (t : Table) (ui : OperatorInputs) (n v : String)
    (hv : (fillPairs ui).lookup n = some v) (hn : n ∈ t.header)
    (ri : Nat) (row : List (Option String)) (hrow : t.rows.get? ri = some row) :
    ∃ row', (withColumnsFill t (fillPairs ui)).rows.get? ri = some row' ∧
      (∀ s, row.get? (colIdx t.header n) = some (some s) →
        row'.get? (colIdx t.header n) = some (some s)) ∧
      (row.get? (colIdx t.header n) = some none →
        row'.get? (colIdx t.header n) = some (some v)) := by
  refine ⟨fillRow (fillPairs ui) t.header row, ?_, ?_, ?_⟩
  · unfold withColumnsFill
    simp only [List.get?_map, hrow, Option.map_some']
  · intro s hs
    rw [fillRow_get?, hs, colIdx_get? t.header n hn]
    simp [fillCell, hv]
  · intro hs
    rw [fillRow_get?, hs, colIdx_get? t.header n hn]
    simp [fillCell, hv]

/-- C1 witness: on a concrete one-row table, the populated `institute`
    cell `"KEEP"` survives the fill byte-identically, and a null cell
    would receive the operator value `"LABX"`. -/
theorem fill_never_overwrites_witness :
    ∃ row', (withColumnsFill tInst (fillPairs uiLab)).rows.get? 0 = some row' ∧
      (∀ s, [some "KEEP"].get? (colIdx tInst.header "institute") = some (some s) →
        row'.get? (colIdx tInst.header "institute") = some (some s)) ∧
      ([some "KEEP"].get? (colIdx tInst.header "institute") = some none →
        row'.get? (colIdx tInst.header "institute") = some (some "LABX")) :=
  fill_never_overwrites tInst uiLab "institute" "LABX" (by decide) (by decide)
    0 [some "KEEP"] (by decide)

theorem joinRow_single (l r : Table) (lk rk : String) (row : List (Option String))
    (h : (joinMatches r rk (row.getD (colIdx l.header lk) none)).length ≤ 1) :
    joinRow l r lk rk row = [joinOne l r lk rk row] := by
  unfold joinRow joinOne
  rcases hm : joinMatches r rk (row.getD (colIdx l.header lk) none) with _ | ⟨e, _ | ⟨e2, es⟩⟩
  · rfl
  · rfl
  · rw [hm] at h
    simp at h

theorem flatMap_joinRow_aux (l r : Table) (lk rk : String) :
    ∀ rows : List (List (Option String)),
      (∀ row ∈ rows, (joinMatches r rk (row.getD (colIdx l.header lk) none)).length ≤ 1) →
      rows.flatMap (joinRow l r lk rk) = rows.map (joinOne l r lk rk) := by
  intro rows h
  induction rows with
  | nil => rfl
  | cons a as ih =>
    rw [List.flatMap_cons, List.map_cons,
      joinRow_single l r lk rk a (h a (by simp)),
      ih (fun row hr => h row (by simp [hr]))]
    rfl

/-- C2: when the join keys match at most one epi-info row per sample row,
    the left join on `sample` = `ICLabID` keeps exactly the sample
    table's row count, preserves every sample row in place, and pads the
    epi-info-origin columns of unmatched rows with nulls. -/
theorem join_completeness (l r : Table) (lk rk : String)
    (h : ∀ row ∈ l.rows, (joinMatches r rk (row.getD (colIdx l.header lk) none)).length ≤ 1) :
    (leftJoin l r lk rk).rows.length = l.rows.length ∧
    (∀ i row, l.rows.get? i = some row →
      ∃ rest, (leftJoin l r lk rk).rows.get? i = some (row ++ rest) ∧
        (joinMatches r rk (row.getD (colIdx l.header lk) none) = [] →
          rest = List.replicate (padWidth r rk) none)) := by
  have hmap : (leftJoin l r lk rk).rows = l.rows.map (joinOne l r lk rk) :=
    flatMap_joinRow_aux l r lk rk l.rows h
  constructor
  · rw [hmap, List.length_map]
  · intro i row hrow
    rw [hmap]
    rcases hm : joinMatches r rk (row.getD (colIdx l.header lk) none) with _ | ⟨e, es⟩
    · refine ⟨List.replicate (padWidth r rk) none, ?_, fun _ => rfl⟩
      rw [List.get?_map, hrow]
      simp only [Option.map_some']
      unfold joinOne
      rw [hm]
    · refine ⟨e.eraseIdx (colIdx r.header rk), ?_, ?_⟩
      · rw [List.get?_map, hrow]
        simp only [Option.map_some']
        unfold joinOne
        rw [hm]
      · intro hcontra
        cases hcontra

/-- C2 witness: the concrete two-sample scenario — row `A` matches the
    single epi-info row, row `B` has no match; the merged table has
    exactly two rows, each extending its sample row, with nulls for `B`. -/
theorem join_completeness_witness :
    (leftJoin tJoinL tJoinR "sample" "ICLabID").rows.length = tJoinL.rows.length ∧
    (∀ i row, tJoinL.rows.get? i = some row →
      ∃ rest, (leftJoin tJoinL tJoinR "sample" "ICLabID").rows.get? i = some (row ++ rest) ∧
        (joinMatches tJoinR "ICLabID" (row.getD (colIdx tJoinL.header "sample") none) = [] →
          rest = List.replicate (padWidth tJoinR "ICLabID") none)) :=
  join_completeness tJoinL tJoinR "sample" "ICLabID" (by decide)

theorem bind_ok_split {ε α β : Type} {e : Except ε α} {f : α → Except ε β} {b : β}
    (h : (e >>= f) = Except.ok b) : ∃ a, e = Except.ok a ∧ f a = Except.ok b := by
  cases e with
  | error err => exact absurd h (by intro hh; exact Except.noConfusion hh)
  | ok a => exact ⟨a, rfl, h⟩

theorem renameCol_ok_cases (t : Table) (o n : String) (t' : Table)
    (h : renameCol t o n = Except.ok t') :
    (o = n ∧ t' = t) ∨
    (o ≠ n ∧ n ∉ t.header ∧ o ∈ t.header ∧
      t' = { t with header := t.header.set (colIdx t.header o) n }) := by
  unfold renameCol at h
  by_cases h1 : o = n
  · rw [if_pos h1] at h
    cases h
    exact Or.inl ⟨h1, rfl⟩
  · rw [if_neg h1] at h
    by_cases h2 : t.header.contains n = true
    · rw [if_pos h2] at h
      cases h
    · rw [if_neg h2] at h
      by_cases h3 : t.header.contains o = true
      · rw [if_pos h3] at h
        cases h
        refine Or.inr ⟨h1, ?_, contains_eq_true_iff_mem.mp h3, rfl⟩
        intro hmem
        exact h2 (contains_eq_true_iff_mem.mpr hmem)
      · rw [if_neg h3] at h
        cases h

theorem not_mem_set_colIdx : ∀ (l : List String) (o n : String),
    l.Nodup → o ∈ l → o ≠ n → o ∉ l.set (colIdx l o) n := by
  intro l
  induction l with
  | nil => intro o n _ ho; cases ho
  | cons a as ih =>
    intro o n hnd ho hne
    unfold colIdx
    rw [List.findIdx_cons]
    by_cases ha : a == o
    · simp only [ha, cond_true, List.set]
      intro hmem
      rcases List.mem_cons.mp hmem with h1 | h1
      · exact hne h1
      · have hao : a = o := by simpa using ha
        subst hao
        exact (List.nodup_cons.mp hnd).1 h1
    · simp only [ha, cond_false, List.set]
      intro hmem
      rcases List.mem_cons.mp hmem with h1 | h1
      · have : ¬(a = o) := by simpa using ha
        exact this h1.symm
      · have hoas : o ∈ as := by
          rcases List.mem_cons.mp ho with h2 | h2
          · exact absurd h2.symm (by simpa using ha)
          · exact h2
        exact (ih o n (List.nodup_cons.mp hnd).2 hoas hne)
          (by simpa [colIdx] using h1)

theorem nodup_set_of_not_mem : ∀ (l : List String) (i : Nat) (n : String),
    l.Nodup → n ∉ l → (l.set i n).Nodup := by
  intro l
  induction l with
  | nil => intro i n _ _; simp
  | cons a as ih =>
    intro i n hnd hn
    cases i with
    | zero =>
      simp only [List.set]
      rw [List.nodup_cons]
      refine ⟨fun hmem => hn (List.mem_cons_of_mem a hmem), (List.nodup_cons.mp hnd).2⟩
    | succ j =>
      simp only [List.set]
      rw [List.nodup_cons]
      constructor
      · intro hmem
        rcases List.mem_or_eq_of_mem_set hmem with h1 | h1
        · exact (List.nodup_cons.mp hnd).1 h1
        · exact hn (h1 ▸ List.mem_cons_self a as)
      · exact ih j n (List.nodup_cons.mp hnd).2 (fun hmem => hn (List.mem_cons_of_mem a hmem))

theorem rename_removes_old (t t' : Table) (o n : String)
    (h : renameCol t o n = Except.ok t') (hne : o ≠ n) (hnd : t.header.Nodup) :
    o ∉ t'.header ∧ t'.header.Nodup := by
  rcases renameCol_ok_cases t o n t' h with ⟨he, _⟩ | ⟨_, hn, ho, rfl⟩
  · exact absurd he hne
  · exact ⟨not_mem_set_colIdx t.header o n hnd ho hne,
      nodup_set_of_not_mem t.header (colIdx t.header o) n hnd hn⟩

theorem rename_preserves (t t' : Table) (o n x : String)
    (h : renameCol t o n = Except.ok t')
    (hx : x ∉ t.header) (hxn : x ≠ n) (hnd : t.header.Nodup) :
    x ∉ t'.header ∧ t'.header.Nodup := by
  rcases renameCol_ok_cases t o n t' h with ⟨_, rfl⟩ | ⟨_, hn, _, rfl⟩
  · exact ⟨hx, hnd⟩
  · constructor
    · intro hmem
      rcases List.mem_or_eq_of_mem_set hmem with h1 | h1
      · exact hx h1
      · exact hxn h1
    · exact nodup_set_of_not_mem t.header (colIdx t.header o) n hnd hn

/-- C7 (amended): the minION rename chain applies its renames
    unconditionally — a rename succeeds only when the old name exists and
    the new one does not already exist, and fails (aborting the step)
    otherwise — so the step is not idempotent: whenever one application
    succeeds on a table with unique column names, a second application
    fails. -/
theorem minion_rename_not_idempotent (t t' : Table) (hnd : t.header.Nodup)
    (h : minionRenameChain t = Except.ok t') :
    ∃ e, minionRenameChain t' = Except.error e := by
  unfold minionRenameChain at h
  obtain ⟨t1, h1, h⟩ := bind_ok_split h
  have s1 := rename_removes_old t t1 "EPID" "EpidNumber" h1 (by decide) hnd
  obtain ⟨t2, h2, h⟩ := bind_ok_split h
  have s2 := rename_preserves t1 t2 "CaseContactOrCommunity" "CaseOrContact" "EPID"
    h2 s1.1 (by decide) s1.2
  obtain ⟨t3, h3, h⟩ := bind_ok_split h
  have s3 := rename_preserves t2 t3 "DateReceivedinLab" "DateStoolReceivedinLab" "EPID"
    h3 s2.1 (by decide) s2.2
  obtain ⟨t4, h4, h⟩ := bind_ok_split h
  have s4 := rename_preserves t3 t4 "DateSampleCollected" "DateStoolCollected" "EPID"
    h4 s3.1 (by decide) s3.2
  obtain ⟨t5, h5, h⟩ := bind_ok_split h
  have s5 := rename_preserves t4 t5 "CultureResult" "FinalCellCultureResult" "EPID"
    h5 s4.1 (by decide) s4.2
  obtain ⟨t6, h6, h⟩ := bind_ok_split h
  have s6 := rename_preserves t5 t6 "DateFinalCultureResult" "DateFinalCellCultureResults"
    "EPID" h6 s5.1 (by decide) s5.2
  have s7 := rename_preserves t6 t' "ITD_Result" "FinalITDResult" "EPID" h s6.1
    (by decide) s6.2
  unfold minionRenameChain
  cases hr : renameCol t' "EPID" "EpidNumber" with
  | error e => exact ⟨e, rfl⟩
  | ok tt =>
    exfalso
    rcases renameCol_ok_cases t' "EPID" "EpidNumber" tt hr with ⟨he, _⟩ | ⟨_, _, ho, _⟩
    · exact absurd he (by decide)
    · exact s7.1 ho

/-- C7 counterexample: on a concrete sample table carrying all seven old
    column names, applying the minION rename chain twice does not yield
    the result of applying it once — the second application fails on a
    duplicate `EpidNumber` column instead of skipping the rename. -/
theorem minion_rename_twice_differs :
    (minionRenameChain tMinion).bind minionRenameChain ≠ minionRenameChain tMinion := by
  intro h
  rw [show minionRenameChain tMinion = Except.ok tMinionRenamed from rfl] at h
  rw [show (Except.ok tMinionRenamed).bind minionRenameChain
      = minionRenameChain tMinionRenamed from rfl] at h
  rw [show minionRenameChain tMinionRenamed
      = Except.error "duplicate column name EpidNumber" from rfl] at h
  cases h

/-- C7 witness: a second application of the rename chain to the renamed
    concrete table fails. -/
theorem minion_rename_not_idempotent_witness :
    ∃ e, minionRenameChain tMinionRenamed = Except.error e :=
  minion_rename_not_idempotent tMinion tMinionRenamed (by decide) (by rfl)

theorem mapError_ok {ε ε' α : Type} {e : Except ε α} {f : ε → ε'} {a : α}
    (h : e.mapError f = Except.ok a) : e = Except.ok a := by
  cases e with
  | error err => exact absurd h (by intro hh; exact Except.noConfusion hh)
  | ok b => simpa [Except.mapError] using h

/-- C9 counterexample: a sample row whose `EPID` cell is populated with
    `"X"` comes out of the epi-present merge path with `EPID = "Y"` (the
    epi-info side's `EpidNumber`): the reconciliation is a rename
    round-trip, not a copy restricted to null/empty `EPID` cells. -/
theorem epid_conditional_copy_ce :
    reconcileJoin tSampleEpid tEpiEpid =
      Except.ok ⟨["sample", "EPID"], [[some "A", some "Y"]]⟩ ∧
    Table.cellAt tSampleEpid 0 "EPID" = some "X" ∧
    Table.cellAt ⟨["sample", "EPID"], [[some "A", some "Y"]]⟩ 0 "EPID" = some "Y" ∧
    (some "Y" : Option String) ≠ some "X" := by
  refine ⟨by rfl, by rfl, by rfl, by decide⟩

/-- C9 (amended): after the left join, the merged table's `EpidNumber`
    column is renamed back to `EPID`; the rename changes the header only
    — every output row is exactly the joined row, so no null-conditional
    copy of `EpidNumber` into `EPID` takes place and no column is
    separately dropped. -/
theorem epid_rename_header_only (sampleDf epi t : Table)
    (h : reconcileJoin sampleDf epi = Except.ok t) :
    ∃ s1, renameCol sampleDf "EPID" "EpidNumber" = Except.ok s1 ∧
      "sample" ∈ (dropMany s1 (commonColumns s1 epi)).header ∧
      "ICLabID" ∈ epi.header ∧
      t.rows = (leftJoin (dropMany s1 (commonColumns s1 epi)) epi "sample" "ICLabID").rows ∧
      t.header = ((leftJoin (dropMany s1 (commonColumns s1 epi)) epi "sample" "ICLabID").header.set
        (colIdx (leftJoin (dropMany s1 (commonColumns s1 epi)) epi "sample" "ICLabID").header
          "EpidNumber") "EPID") := by
  unfold reconcileJoin at h
  obtain ⟨s1, hs1m, h⟩ := bind_ok_split h
  have hs1 : renameCol sampleDf "EPID" "EpidNumber" = Except.ok s1 := mapError_ok hs1m
  obtain ⟨m, hmm, h⟩ := bind_ok_split h
  by_cases hcond : "sample" ∈ (dropMany s1 (commonColumns s1 epi)).header ∧
      "ICLabID" ∈ epi.header
  · rw [if_pos hcond] at hmm
    cases hmm
    have hren : renameCol (leftJoin (dropMany s1 (commonColumns s1 epi)) epi
        "sample" "ICLabID") "EpidNumber" "EPID" = Except.ok t := mapError_ok h
    rcases renameCol_ok_cases _ "EpidNumber" "EPID" t hren with ⟨he, _⟩ | ⟨_, _, _, rfl⟩
    · exact absurd he (by decide)
    · exact ⟨s1, hs1, hcond.1, hcond.2, rfl, rfl⟩
  · rw [if_neg hcond] at hmm
    exact absurd hmm (by intro hh; exact Except.noConfusion hh)

/-- C9 witness: the amended statement instantiated at the concrete
    tables of the counterexample. -/
theorem epid_rename_header_only_witness :
    ∃ s1, renameCol tSampleEpid "EPID" "EpidNumber" = Except.ok s1 ∧
      "sample" ∈ (dropMany s1 (commonColumns s1 tEpiEpid)).header ∧
      "ICLabID" ∈ tEpiEpid.header ∧
      (⟨["sample", "EPID"], [[some "A", some "Y"]]⟩ : Table).rows =
        (leftJoin (dropMany s1 (commonColumns s1 tEpiEpid)) tEpiEpid "sample" "ICLabID").rows ∧
      (⟨["sample", "EPID"], [[some "A", some "Y"]]⟩ : Table).header =
        ((leftJoin (dropMany s1 (commonColumns s1 tEpiEpid)) tEpiEpid "sample" "ICLabID").header.set
          (colIdx (leftJoin (dropMany s1 (commonColumns s1 tEpiEpid)) tEpiEpid
            "sample" "ICLabID").header "EpidNumber") "EPID") :=
  epid_rename_header_only tSampleEpid tEpiEpid
    ⟨["sample", "EPID"], [[some "A", some "Y"]]⟩ (by rfl)

/-- C5: when any validation, parse, join or fill step of the pipeline
    fails, no output file is created; the output file is created exactly
    when every step has succeeded. -/
theorem no_partial_output (env : MergeEnv) (parse : String → Option Json) :
    (∀ e, mergePipeline env parse = Except.error e →
      onMerge env parse = (Except.error e, [])) ∧
    (∀ t, mergePipeline env parse = Except.ok t →
      onMerge env parse = (Except.ok (), [outPath env])) := by
  constructor
  · intro e he
    unfold onMerge
    rw [he]
  · intro t ht
    unfold onMerge
    rw [ht]

/-- C5 witness: a merge invocation with no sample file selected fails at
    the input check and creates no file. -/
theorem no_partial_output_witness :
    onMerge envNoSample (fun _ => none) = (Except.error MergeErr.inputMissing, []) :=
  (no_partial_output envNoSample (fun _ => none)).1 MergeErr.inputMissing (by rfl)

theorem runNumMsg_ne_empty (rn : String) :
    ("\n\nInvalid run number format: " ++ rn ++ " \nExpected yyyymmdd_xxx.") ≠ "" := by
  intro h
  have hlen := congrArg String.length h
  rw [String.length_append, String.length_append] at hlen
  have h1 : 0 < ("\n\nInvalid run number format: " : String).length := by decide
  simp only [String.length_empty] at hlen
  omega

theorem runNumErrMsg_empty_iff (rn : String) :
    runNumErrMsg rn = "" ↔ (rn = "" ∨ runNumMatches rn = true) := by
  unfold runNumErrMsg
  split_ifs with hc
  · constructor
    · intro h
      exact absurd h (runNumMsg_ne_empty rn)
    · intro h
      rcases h with h | h
      · exact absurd h hc.1
      · rw [hc.2] at h
        cases h
  · constructor
    · intro _
      by_cases h1 : rn = ""
      · exact Or.inl h1
      · refine Or.inr ?_
        by_cases h2 : runNumMatches rn = true
        · exact h2
        · exact absurd ⟨h1, by simpa using h2⟩ hc
    · intro _
      rfl

theorem dateErrorsFrom_nil_iff : ∀ (ds : List String) (i : Nat),
    dateErrorsFrom i ds = [] ↔ ∀ d ∈ ds, d = "" ∨ dateMatches d = true := by
  intro ds
  induction ds with
  | nil => intro i; simp [dateErrorsFrom]
  | cons d ds ih =>
    intro i
    unfold dateErrorsFrom
    split_ifs with hc
    · constructor
      · intro h
        cases h
      · intro h
        rcases h d (List.mem_cons_self d ds) with h1 | h1
        · exact absurd h1 hc.1
        · rw [hc.2] at h1
          cases h1
    · rw [ih (i + 1)]
      constructor
      · intro h x hx
        rcases List.mem_cons.mp hx with h1 | h1
        · subst h1
          by_cases h2 : x = ""
          · exact Or.inl h2
          · refine Or.inr ?_
            by_cases h3 : dateMatches x = true
            · exact h3
            · exact absurd ⟨h2, by simpa using h3⟩ hc
        · exact h x h1
      · intro h x hx
        exact h x (List.mem_cons_of_mem d hx)

theorem formatCheck_none_iff (ui : OperatorInputs) :
    formatCheck ui = none ↔
      (runNumErrMsg ui.runNum = "" ∧
       dateErrorsFrom 0 [ui.rtDate, ui.vp1Date, ui.seqDate, ui.fastaDate] = []) := by
  simp only [formatCheck]
  split_ifs with hc
  · constructor
    · intro h
      exact absurd h (by simp)
    · intro h
      rcases hc with hc | hc
      · exact absurd h.2 hc
      · exact absurd h.1 hc
  · constructor
    · intro _
      push_neg at hc
      exact ⟨hc.2, hc.1⟩
    · intro _
      rfl

/-- C4: in merge mode, the format validation passes iff the run number
    is empty or matches `^\d{8}_\d{3}$` and every non-empty date field
    matches `^\d{4}-\d{2}-\d{2}$`; when it fails, all collected format
    errors are joined into one combined message returned in a single
    failure, and the merge aborts before any output file is written. -/
theorem format_errors_single_failure :
    (∀ ui : OperatorInputs, formatCheck ui = none ↔
      ((ui.runNum = "" ∨ runNumMatches ui.runNum = true) ∧
       ∀ d ∈ [ui.rtDate, ui.vp1Date, ui.seqDate, ui.fastaDate],
         d = "" ∨ dateMatches d = true)) ∧
    (∀ ui msg, formatCheck ui = some msg →
      msg = "\n" ++ String.intercalate "\n\n"
          (if dateErrorsFrom 0 [ui.rtDate, ui.vp1Date, ui.seqDate, ui.fastaDate] ≠ [] then
            dateErrorsFrom 0 [ui.rtDate, ui.vp1Date, ui.seqDate, ui.fastaDate]
              ++ ["Expected yyyy-mm-dd."]
          else dateErrorsFrom 0 [ui.rtDate, ui.vp1Date, ui.seqDate, ui.fastaDate]) ++
        " \n " ++ runNumErrMsg ui.runNum ++
        " \n\n Refer to the Guide for more information.") ∧
    (∀ env (parse : String → Option Json) msg, env.mode = "merge" →
      formatCheck (applyExtract env.ui (extractRunMetadata env.htmlScripts parse)) = some msg →
      (onMerge env parse).2 = [] ∧ ∃ e, (onMerge env parse).1 = Except.error e) := by
  refine ⟨?_, ?_, ?_⟩
  · intro ui
    rw [formatCheck_none_iff ui]
    exact and_congr (runNumErrMsg_empty_iff ui.runNum)
      (dateErrorsFrom_nil_iff [ui.rtDate, ui.vp1Date, ui.seqDate, ui.fastaDate] 0)
  · intro ui msg h
    simp only [formatCheck] at h
    split_ifs at h with hc hd
    · rw [if_pos hd]
      exact (Option.some.inj h).symm
    · rw [if_neg hd]
      exact (Option.some.inj h).symm
  · intro env parse msg hmode hfc
    have key : ∃ e, mergePipeline env parse = Except.error e := by
      cases hp : mergePipeline env parse with
      | error e => exact ⟨e, rfl⟩
      | ok t =>
        exfalso
        unfold mergePipeline at hp
        obtain ⟨u, hc, hp⟩ := bind_ok_split hp
        obtain ⟨sampleDf, hs, hp⟩ := bind_ok_split hp
        obtain ⟨epiDf, hle, hp⟩ := bind_ok_split hp
        obtain ⟨u2, hv, hp⟩ := bind_ok_split hp
        obtain ⟨merged, hm, hp⟩ := bind_ok_split hp
        unfold fillStage at hp
        rw [hmode, if_pos rfl, hfc] at hp
        cases hp
    obtain ⟨e, he⟩ := key
    constructor
    · show (onMerge env parse).2 = []
      unfold onMerge
      rw [he]
    · refine ⟨e, ?_⟩
      unfold onMerge
      rw [he]

/-- C4 witness: the invalid run number `2025020_5` (concrete scenario 3)
    makes the merge fail in a single combined format failure with no file
    written. -/
theorem format_errors_single_failure_witness :
    (onMerge envBadRunNum (fun _ => none)).2 = [] ∧
    ∃ e, (onMerge envBadRunNum (fun _ => none)).1 = Except.error e :=
  format_errors_single_failure.2.2 envBadRunNum (fun _ => none)
    ("\n \n \n\nInvalid run number format: 2025020_5 \nExpected yyyymmdd_xxx. \n\n Refer to the Guide for more information.")
    (by rfl) (by rfl)

theorem extract_no_marker (scripts : List String) (parse : String → Option Json)
    (h : ∀ s ∈ scripts, hasMarker s = false) :
    extractRunMetadata scripts parse = RunMetadata.empty := by
  unfold extractRunMetadata
  have hf : scripts.find? (fun s => hasMarker s) = none :=
    List.find?_eq_none.mpr (by simpa using h)
  rw [hf]

/-- C6: the run-report extractor never aborts the merge: when no script
    contains the `const reportData=` marker, or the JSON slice after the
    marker fails to parse, the result is the empty/default RunMetadata
    (no UI field is touched), and the merge proceeds exactly as it would
    with no report data at all. -/
theorem report_extraction_best_effort :
    (∀ (scripts : List String) (parse : String → Option Json),
      (∀ s ∈ scripts, hasMarker s = false) →
      extractRunMetadata scripts parse = RunMetadata.empty) ∧
    (∀ (scripts : List String) (parse : String → Option Json) (text js : String),
      scripts.find? (fun s => hasMarker s) = some text →
      reportSlice text = some js → parse js = none →
      extractRunMetadata scripts parse = RunMetadata.empty) ∧
    (∀ ui : OperatorInputs, applyExtract ui RunMetadata.empty = ui) ∧
    (∀ (env : MergeEnv) (parse : String → Option Json),
      (∀ s ∈ env.htmlScripts, hasMarker s = false) →
      onMerge env parse = onMerge { env with htmlScripts := [] } parse) := by
  refine ⟨extract_no_marker, ?_, ?_, ?_⟩
  · intro scripts parse text js hfind hslice hparse
    unfold extractRunMetadata
    rw [hfind]
    dsimp only
    rw [hslice]
    dsimp only
    rw [hparse]
  · intro ui
    rfl
  · intro env parse h
    obtain ⟨sp, ep, mp, d, sc, ec, hs, ui, md⟩ := env
    have h1 : extractRunMetadata hs parse = RunMetadata.empty :=
      extract_no_marker hs parse h
    unfold onMerge mergePipeline outPath
    dsimp only
    rw [h1]
    rfl

/-- C6 witness: a report with no `const reportData=` marker yields the
    empty RunMetadata and leaves the merge unchanged. -/
theorem report_extraction_best_effort_witness :
    extractRunMetadata ["no data here"] (fun _ => none) = RunMetadata.empty ∧
    onMerge envNoMarker (fun _ => none) =
      onMerge { envNoMarker with htmlScripts := [] } (fun _ => none) :=
  ⟨report_extraction_best_effort.1 ["no data here"] (fun _ => none) (by decide),
   report_extraction_best_effort.2.2.2 envNoMarker (fun _ => none) (by decide)⟩

end Merger
